import Mathlib

/-!
Verification of the tech-jobs-tracker ingestion pipeline.

Shallow embedding of the Python sources:
  * `src/etl/transformer.py`  (salary / location / technology normalization)
  * `src/etl/extractor.py`    (record validation and batch extraction)
  * `src/scraper/rate_limiter.py` (request pacer and circuit breaker)
  * `src/etl/loader.py` with the schema of `src/database/models.py`
    (reconciling loader over an explicit relational store)

Machine reals are modelled as ℚ (all salary arithmetic in scope is exact),
dates and times as Nat / Int, and SQL tables as Lean lists of rows.
-/

namespace TechJobs

/-! ## String helpers shared by the transformer and extractor

`pyToLower` models Python `str.lower` on the alphabet that actually occurs
in the fixed tables of `transformer.py`: ASCII letters plus the Polish
uppercase letters appearing in city names. -/

def pyToLower (c : Char) : Char :=
  if 'A' ≤ c ∧ c ≤ 'Z' then Char.ofNat (c.toNat + 32)
  else if c = 'Ł' then 'ł'
  else if c = 'Ó' then 'ó'
  else if c = 'Ś' then 'ś'
  else if c = 'Ż' then 'ż'
  else if c = 'Ź' then 'ź'
  else if c = 'Ć' then 'ć'
  else if c = 'Ą' then 'ą'
  else if c = 'Ę' then 'ę'
  else if c = 'Ń' then 'ń'
  else c

def lowerStr (s : String) : String :=
  String.mk (s.toList.map pyToLower)

/-- `listInfixOf pat hay` decides whether `pat` occurs contiguously in `hay`,
modelling the Python expression `pat in hay` on strings. -/
def listInfixOf (pat : List Char) : List Char → Bool
  | [] => pat.isEmpty
  | c :: t => pat.isPrefixOf (c :: t) || listInfixOf pat t

/-- Python `pat in s` for strings. -/
def strIn (pat s : String) : Bool :=
  listInfixOf pat.toList s.toList

/-! ## `transformer.py`: salary normalization -/

/-- `salary_text.replace(' ', '').replace('\xa0', '')`. -/
def removeSpaces (s : String) : String :=
  String.mk (s.toList.filter (fun c => c ≠ ' ' ∧ c ≠ '\xA0'))

/-- Maximal runs of decimal digits, scanning left to right
(`re.findall(r'\d+', cleaned)` before integer conversion).
The accumulator holds the current run reversed. -/
def digitRuns : List Char → List Char → List (List Char)
  | [], acc => if acc.isEmpty then [] else [acc.reverse]
  | c :: t, acc =>
    if c.isDigit then digitRuns t (c :: acc)
    else if acc.isEmpty then digitRuns t []
    else acc.reverse :: digitRuns t []

def runToNat (r : List Char) : Nat :=
  r.foldl (fun n c => 10 * n + (c.toNat - 48)) 0

/-- `re.findall(r'\d+', s)` with every run read as an integer. -/
def findNumbers (s : String) : List Nat :=
  (digitRuns s.toList []).map runToNat

structure SalaryNorm where
  salary_min : ℚ
  salary_max : ℚ
  salary_avg : ℚ
  currency : String
  period : String
  is_b2b : Bool
deriving Repr, DecidableEq

/-- Currency detection of `normalize_salary`: case-sensitive substring
match on the cleaned text, defaulting to PLN. -/
def detectCurrency (cleaned : String) : String :=
  if strIn "EUR" cleaned || strIn "€" cleaned then "EUR"
  else if strIn "USD" cleaned || strIn "$" cleaned then "USD"
  else "PLN"

/-- Period detection of `normalize_salary`, defaulting to monthly. -/
def detectPeriod (cleaned : String) : String :=
  if strIn "/h" cleaned || strIn "godz" (lowerStr cleaned)
      || strIn "hour" (lowerStr cleaned) then "hourly"
  else if strIn "/rok" cleaned || strIn "annual" (lowerStr cleaned)
      || strIn "yearly" (lowerStr cleaned) then "annual"
  else "monthly"

/-- B2B detection of `normalize_salary` (keyword match on lowered text). -/
def detectB2B (cleaned : String) : Bool :=
  strIn "b2b" (lowerStr cleaned) || strIn "netto" (lowerStr cleaned)
    || strIn "net" (lowerStr cleaned)

/-- Building the result record from the first two extracted integers,
swapping when min exceeds max (`if salary_min > salary_max: swap`). -/
def mkSalaryNorm (cleaned : String) (n1 n2 : Nat) : SalaryNorm :=
  let lo : Nat := if n2 < n1 then n2 else n1
  let hi : Nat := if n2 < n1 then n1 else n2
  { salary_min := (lo : ℚ)
    salary_max := (hi : ℚ)
    salary_avg := ((lo : ℚ) + (hi : ℚ)) / 2
    currency := detectCurrency cleaned
    period := detectPeriod cleaned
    is_b2b := detectB2B cleaned }

/-- `DataTransformer.normalize_salary` (transformer.py lines 140-205).
A falsy argument (None or the empty string) yields None; with exactly one
embedded integer the code duplicates it (`numbers = [value, value]`);
with none it returns None. -/
def normalize_salary (salary_text : Option String) : Option SalaryNorm :=
  match salary_text with
  | none => none
  | some s =>
    if s = "" then none
    else
      let cleaned := removeSpaces s
      match findNumbers cleaned with
      | [] => none
      | [v] => some (mkSalaryNorm cleaned v v)
      | n1 :: n2 :: _ => some (mkSalaryNorm cleaned n1 n2)

/-! ## `transformer.py`: location standardization -/

structure LocationNorm where
  location_type : Option String
  city : Option String
  region : Option String
  country : String
deriving Repr, DecidableEq

/-- `DataTransformer.CITY_TO_REGION`, in Python dict insertion order. -/
def CITY_TO_REGION : List (String × String) :=
  [("Warszawa", "Mazowieckie"), ("Kraków", "Małopolskie"),
   ("Wrocław", "Dolnośląskie"), ("Poznań", "Wielkopolskie"),
   ("Gdańsk", "Pomorskie"), ("Gdynia", "Pomorskie"), ("Sopot", "Pomorskie"),
   ("Szczecin", "Zachodniopomorskie"), ("Łódź", "Łódzkie"),
   ("Katowice", "Śląskie"), ("Gliwice", "Śląskie"),
   ("Bydgoszcz", "Kujawsko-pomorskie"), ("Lublin", "Lubelskie"),
   ("Białystok", "Podlaskie"), ("Rzeszów", "Podkarpackie"),
   ("Toruń", "Kujawsko-pomorskie")]

def remote_keywords : List String :=
  ["zdalna", "remote", "zdalnie", "praca zdalna", "remotely"]

def isRemoteText (low : String) : Bool :=
  remote_keywords.any (fun k => strIn k low)

/-- First city of the table whose lowered name occurs in the lowered text
(the Python for-loop breaks at the first hit). -/
def findCityHit (low : String) : Option (String × String) :=
  CITY_TO_REGION.find? (fun p => strIn (lowerStr p.1) low)

/-- `DataTransformer.standardize_location` (transformer.py lines 207-256). -/
def standardize_location (location_text : Option String) : LocationNorm :=
  match location_text with
  | none => ⟨none, none, none, "Poland"⟩
  | some s =>
    if s = "" then ⟨none, none, none, "Poland"⟩
    else
      let low := lowerStr s
      let is_remote := isRemoteText low
      let hit := findCityHit low
      ⟨if is_remote && hit.isSome then some "hybrid"
        else if is_remote then some "remote"
        else if hit.isSome then some "office"
        else none,
       hit.map Prod.fst, hit.map Prod.snd, "Poland"⟩

/-! ## `transformer.py`: technology categorization -/

/-- `DataTransformer.TECHNOLOGY_CATEGORIES`, in dict insertion order. -/
def TECHNOLOGY_CATEGORIES : List (String × List String) :=
  [("language",
    ["Python", "Java", "JavaScript", "TypeScript", "C#", "C++", "Go",
     "Rust", "Ruby", "PHP", "Swift", "Kotlin", "Scala", "R", "Julia"]),
   ("framework",
    ["React", "Angular", "Vue", "Django", "Flask", "FastAPI", "Spring",
     "Node.js", "Express", ".NET", "ASP.NET", "Laravel", "Rails",
     "Symfony", "Next.js", "Nuxt.js", "Svelte"]),
   ("database",
    ["PostgreSQL", "MySQL", "MongoDB", "Redis", "Elasticsearch",
     "Oracle", "SQL Server", "Cassandra", "DynamoDB", "MariaDB",
     "SQLite", "Neo4j", "CouchDB"]),
   ("cloud",
    ["AWS", "Azure", "GCP", "Google Cloud", "Heroku", "DigitalOcean",
     "Linode", "Cloudflare"]),
   ("tool",
    ["Docker", "Kubernetes", "Git", "Jenkins", "GitLab", "GitHub",
     "Terraform", "Ansible", "Vagrant", "CI/CD", "Jira", "Confluence"])]

/-- First pass of `categorize_technology`: exact case-insensitive equality,
categories and entries scanned in table order. -/
def firstExactMatch (low : String) : Option String :=
  TECHNOLOGY_CATEGORIES.findSome?
    (fun p => if p.2.any (fun t => lowerStr t == low) then some p.1 else none)

/-- Second pass: case-insensitive substring containment
(catalog entry contained in the name). -/
def firstSubMatch (low : String) : Option String :=
  TECHNOLOGY_CATEGORIES.findSome?
    (fun p => if p.2.any (fun t => strIn (lowerStr t) low) then some p.1 else none)

/-- `DataTransformer.categorize_technology` (transformer.py lines 258-282):
the exact pass runs to completion before the substring pass starts. -/
def categorize_technology (tech_name : String) : String :=
  match firstExactMatch (lowerStr tech_name) with
  | some cat => cat
  | none =>
    match firstSubMatch (lowerStr tech_name) with
    | some cat => cat
    | none => "other"


/-! ## Theorems about the field transformer (claims C5, C6, C7) -/

/-- The swap-and-average step expressed through `min`/`max`:
`mkSalaryNorm` takes the two extracted integers in either order. -/
theorem mkSalaryNorm_eq (c : String) (n1 n2 : Nat) :
    mkSalaryNorm c n1 n2 =
      { salary_min := ((Nat.min n1 n2 : Nat) : ℚ)
        salary_max := ((Nat.max n1 n2 : Nat) : ℚ)
        salary_avg := ((n1 : ℚ) + (n2 : ℚ)) / 2
        currency := detectCurrency c
        period := detectPeriod c
        is_b2b := detectB2B c } := by
  unfold mkSalaryNorm
  rcases lt_or_ge n2 n1 with h | h
  · have h1 : Nat.min n1 n2 = n2 := Nat.min_eq_right h.le
    have h2 : Nat.max n1 n2 = n1 := Nat.max_eq_left h.le
    simp only [if_pos h, h1, h2, SalaryNorm.mk.injEq, eq_self_iff_true,
      and_true, true_and]
    ring
  · have h1 : Nat.min n1 n2 = n1 := Nat.min_eq_left h
    have h2 : Nat.max n1 n2 = n2 := Nat.max_eq_right h
    simp [if_neg (not_lt.mpr h), h1, h2]

/-- C5 (amended): salary normalization returns no salary exactly when the
cleaned text contains no embedded integer; a single embedded integer is
duplicated into min = max = value (with default currency and period
detection); two or more integers yield the first two as min/max (swapped
when needed), the average is their arithmetic mean, and
`"15000 - 20000 PLN"` parses to min 15000, max 20000, avg 17500, PLN,
monthly, not B2B. -/
theorem C5_salary_normalization : ∀ s : String,
    (findNumbers (removeSpaces s) = [] → normalize_salary (some s) = none)
    ∧ (∀ v, findNumbers (removeSpaces s) = [v] →
        normalize_salary (some s) = some
          { salary_min := (v : ℚ), salary_max := (v : ℚ), salary_avg := (v : ℚ)
            currency := detectCurrency (removeSpaces s)
            period := detectPeriod (removeSpaces s)
            is_b2b := detectB2B (removeSpaces s) })
    ∧ (∀ n1 n2 rest, findNumbers (removeSpaces s) = n1 :: n2 :: rest →
        normalize_salary (some s) = some
          { salary_min := ((Nat.min n1 n2 : Nat) : ℚ)
            salary_max := ((Nat.max n1 n2 : Nat) : ℚ)
            salary_avg := ((n1 : ℚ) + (n2 : ℚ)) / 2
            currency := detectCurrency (removeSpaces s)
            period := detectPeriod (removeSpaces s)
            is_b2b := detectB2B (removeSpaces s) })
    ∧ normalize_salary (some "15000 - 20000 PLN") = some
        { salary_min := 15000, salary_max := 20000, salary_avg := 17500
          currency := "PLN", period := "monthly", is_b2b := false } := by
  intro s
  have hempty : findNumbers (removeSpaces "") = [] := by decide
  refine ⟨?_, ?_, ?_, ?_⟩
  · intro h
    by_cases hs : s = ""
    · subst hs; rfl
    · simp only [normalize_salary, if_neg hs, h]
  · intro v h
    by_cases hs : s = ""
    · subst hs; rw [hempty] at h; exact absurd h (by simp)
    · simp only [normalize_salary, if_neg hs, h]
      rw [mkSalaryNorm_eq]
      simp only [Nat.min_self, Nat.max_self, Option.some.injEq,
        SalaryNorm.mk.injEq, eq_self_iff_true, and_true, true_and]
      ring
  · intro n1 n2 rest h
    by_cases hs : s = ""
    · subst hs; rw [hempty] at h; exact absurd h (by simp)
    · simp only [normalize_salary, if_neg hs, h]
      rw [mkSalaryNorm_eq]
  · have h : findNumbers (removeSpaces "15000 - 20000 PLN") = [15000, 20000] := by decide
    have hne : ¬ "15000 - 20000 PLN" = "" := by decide
    have hc : detectCurrency (removeSpaces "15000 - 20000 PLN") = "PLN" := by decide
    have hp : detectPeriod (removeSpaces "15000 - 20000 PLN") = "monthly" := by decide
    have hb : detectB2B (removeSpaces "15000 - 20000 PLN") = false := by decide
    simp only [normalize_salary, h, if_neg hne]
    norm_num [mkSalaryNorm, hc, hp, hb]

/-- C5 witness: the amended theorem applied at concrete inputs — a
digit-free text yields no salary, and `"20 - 10 PLN"` is swapped into
min 10 / max 20. -/
theorem C5_salary_normalization_witness :
    normalize_salary (some "abc") = none
    ∧ normalize_salary (some "20 - 10 PLN") = some
        { salary_min := ((Nat.min 20 10 : Nat) : ℚ)
          salary_max := ((Nat.max 20 10 : Nat) : ℚ)
          salary_avg := ((20 : ℚ) + (10 : ℚ)) / 2
          currency := detectCurrency (removeSpaces "20 - 10 PLN")
          period := detectPeriod (removeSpaces "20 - 10 PLN")
          is_b2b := detectB2B (removeSpaces "20 - 10 PLN") } :=
  ⟨(C5_salary_normalization "abc").1 (by decide),
   (C5_salary_normalization "20 - 10 PLN").2.2.1 20 10 [] (by decide)⟩

/-- C5 counterexample: the code does NOT return "no salary" for a single
embedded integer without any currency marker. `"5000"` has exactly one
embedded integer and no currency substring (currency detection falls back
to the default PLN), yet `normalize_salary` produces a full salary record
with min = max = avg = 5000 — refuting the claimed no-salary outcome. -/
theorem C5_salary_counterexample :
    (findNumbers (removeSpaces "5000")).length < 2
    ∧ strIn "EUR" (removeSpaces "5000") = false
    ∧ strIn "USD" (removeSpaces "5000") = false
    ∧ normalize_salary (some "5000") = some
        { salary_min := 5000, salary_max := 5000, salary_avg := 5000
          currency := "PLN", period := "monthly", is_b2b := false } := by
  refine ⟨by decide, by decide, by decide, ?_⟩
  have h : findNumbers (removeSpaces "5000") = [5000] := by decide
  have hne : ¬ "5000" = "" := by decide
  have hc : detectCurrency (removeSpaces "5000") = "PLN" := by decide
  have hp : detectPeriod (removeSpaces "5000") = "monthly" := by decide
  have hb : detectB2B (removeSpaces "5000") = false := by decide
  simp only [normalize_salary, h, if_neg hne]
  norm_num [mkSalaryNorm, hc, hp, hb]

/-- C6: location classification — remote keyword together with a recognized
city gives "hybrid", a remote keyword alone gives "remote", a city alone
gives "office", neither gives a null type; `"Warszawa / Zdalnie"` maps to
(hybrid, Warszawa, Mazowieckie) and `"Praca zdalna"` to remote with null
city. -/
theorem C6_location_standardization :
    (∀ s : String,
      (standardize_location (some s)).location_type =
        (if s = "" then none
         else if isRemoteText (lowerStr s) && (findCityHit (lowerStr s)).isSome then
           some "hybrid"
         else if isRemoteText (lowerStr s) then some "remote"
         else if (findCityHit (lowerStr s)).isSome then some "office"
         else none))
    ∧ standardize_location (some "Warszawa / Zdalnie") =
        { location_type := some "hybrid", city := some "Warszawa"
          region := some "Mazowieckie", country := "Poland" }
    ∧ standardize_location (some "Praca zdalna") =
        { location_type := some "remote", city := none, region := none
          country := "Poland" } := by
  refine ⟨fun s => ?_, by decide, by decide⟩
  by_cases hs : s = "" <;> simp [standardize_location, hs]

/-- C7: technology categorization tries the exact case-insensitive pass over
the whole catalog first, then the substring pass, then falls back to
"other". "Python" is a language, "Django" a framework, "PostgreSQL" a
database, "Haskell" (matching neither pass) is other; "Oracle" shows the
pass order: the substring pass alone would classify it as a language (the
catalog entry "R" occurs inside it), but the exact match in the database
category wins because the exact pass completes first. -/
theorem C7_technology_categorization :
    (∀ n cat, firstExactMatch (lowerStr n) = some cat →
      categorize_technology n = cat)
    ∧ (∀ n cat, firstExactMatch (lowerStr n) = none →
        firstSubMatch (lowerStr n) = some cat → categorize_technology n = cat)
    ∧ (∀ n, firstExactMatch (lowerStr n) = none →
        firstSubMatch (lowerStr n) = none → categorize_technology n = "other")
    ∧ categorize_technology "Python" = "language"
    ∧ categorize_technology "Django" = "framework"
    ∧ categorize_technology "PostgreSQL" = "database"
    ∧ categorize_technology "Haskell" = "other"
    ∧ firstSubMatch (lowerStr "Oracle") = some "language"
    ∧ categorize_technology "Oracle" = "database" := by
  refine ⟨?_, ?_, ?_, by decide, by decide, by decide, by decide, by decide,
    by decide⟩
  · intro n cat h
    simp [categorize_technology, h]
  · intro n cat h1 h2
    simp [categorize_technology, h1, h2]
  · intro n h1 h2
    simp [categorize_technology, h1, h2]

/-- C7 witness: both passes exercised at concrete names — "Vue" by the
exact pass, "Spark" by the substring pass (no exact match). -/
theorem C7_technology_categorization_witness :
    categorize_technology "Vue" = "framework"
    ∧ categorize_technology "Spark" = "language" :=
  ⟨C7_technology_categorization.1 "Vue" "framework" (by decide),
   C7_technology_categorization.2.1 "Spark" "language" (by decide) (by decide)⟩


/-! ## `rate_limiter.py`: CircuitBreaker (claim C4)

Wall-clock instants (`datetime.now()`) are modelled as integers passed
explicitly to the operations that read the clock. -/

inductive BreakerState
  | closed
  | opened
  | halfOpen
deriving Repr, DecidableEq

structure CircuitBreaker where
  failure_threshold : Nat
  timeout_seconds : Int
  failure_count : Nat
  last_failure_time : Option Int
  state : BreakerState
deriving Repr, DecidableEq

/-- `CircuitBreaker.__init__`. -/
def CircuitBreaker.init (thr : Nat) (tmo : Int) : CircuitBreaker :=
  ⟨thr, tmo, 0, none, .closed⟩

/-- `CircuitBreaker.record_success`. -/
def record_success (cb : CircuitBreaker) : CircuitBreaker :=
  { cb with failure_count := 0, state := .closed }

/-- `CircuitBreaker.record_failure` at clock instant `now`: increment the
counter, stamp the failure time, and open the circuit when the counter has
reached the threshold. -/
def record_failure (now : Int) (cb : CircuitBreaker) : CircuitBreaker :=
  if cb.failure_threshold ≤ cb.failure_count + 1 then
    { cb with failure_count := cb.failure_count + 1,
              last_failure_time := some now, state := .opened }
  else
    { cb with failure_count := cb.failure_count + 1,
              last_failure_time := some now }

/-- `CircuitBreaker.can_proceed` at clock instant `now`: returns the boolean
answer and the (possibly updated) breaker, since the open-to-half-open
transition happens inside this call. -/
def can_proceed (now : Int) (cb : CircuitBreaker) : Bool × CircuitBreaker :=
  match cb.state with
  | .closed => (true, cb)
  | .opened =>
    match cb.last_failure_time with
    | some t =>
      if cb.timeout_seconds ≤ now - t then (true, { cb with state := .halfOpen })
      else (false, cb)
    | none => (false, cb)
  | .halfOpen => (true, cb)

/-- `CircuitBreaker.reset`. -/
def CircuitBreaker.resetCB (cb : CircuitBreaker) : CircuitBreaker :=
  { cb with failure_count := 0, last_failure_time := none, state := .closed }

theorem record_failure_count (now : Int) (cb : CircuitBreaker) :
    (record_failure now cb).failure_count = cb.failure_count + 1 := by
  unfold record_failure; split <;> rfl

theorem record_failure_threshold (now : Int) (cb : CircuitBreaker) :
    (record_failure now cb).failure_threshold = cb.failure_threshold := by
  unfold record_failure; split <;> rfl

theorem record_failure_timeout (now : Int) (cb : CircuitBreaker) :
    (record_failure now cb).timeout_seconds = cb.timeout_seconds := by
  unfold record_failure; split <;> rfl

theorem record_failure_last (now : Int) (cb : CircuitBreaker) :
    (record_failure now cb).last_failure_time = some now := by
  unfold record_failure; split <;> rfl

/-- Breaker states reachable from a fresh breaker through its public
operations. -/
inductive BreakerReachable : CircuitBreaker → Prop
  | start (thr : Nat) (tmo : Int) : BreakerReachable (CircuitBreaker.init thr tmo)
  | fails (now : Int) {cb : CircuitBreaker} :
      BreakerReachable cb → BreakerReachable (record_failure now cb)
  | succeeds {cb : CircuitBreaker} :
      BreakerReachable cb → BreakerReachable (record_success cb)
  | proceeds (now : Int) {cb : CircuitBreaker} :
      BreakerReachable cb → BreakerReachable (can_proceed now cb).2
  | resets {cb : CircuitBreaker} :
      BreakerReachable cb → BreakerReachable cb.resetCB

/-- A sequence of `record_failure` calls at the given instants. -/
def foldFailures (ts : List Int) (cb : CircuitBreaker) : CircuitBreaker :=
  ts.foldl (fun c t => record_failure t c) cb

theorem foldFailures_fields (ts : List Int) (cb : CircuitBreaker) :
    (foldFailures ts cb).failure_threshold = cb.failure_threshold
    ∧ (foldFailures ts cb).timeout_seconds = cb.timeout_seconds
    ∧ (foldFailures ts cb).failure_count = cb.failure_count + ts.length := by
  induction ts generalizing cb with
  | nil => simp [foldFailures]
  | cons t ts ih =>
    have h := ih (record_failure t cb)
    simp only [foldFailures, List.foldl_cons] at h ⊢
    refine ⟨?_, ?_, ?_⟩
    · rw [h.1, record_failure_threshold]
    · rw [h.2.1, record_failure_timeout]
    · rw [h.2.2, record_failure_count]
      simp only [List.length_cons]
      omega

/-- Reachability invariant: outside the closed state the failure counter has
reached the threshold. -/
theorem breaker_invariant {cb : CircuitBreaker} (h : BreakerReachable cb) :
    cb.state ≠ .closed → cb.failure_threshold ≤ cb.failure_count := by
  induction h with
  | start thr tmo => intro hc; exact absurd rfl hc
  | @fails now cb h ih =>
    intro _
    by_cases hle : cb.failure_threshold ≤ cb.failure_count + 1
    · rw [record_failure_threshold, record_failure_count]
      exact hle
    · have hstate : (record_failure now cb).state = cb.state := by
        unfold record_failure
        rw [if_neg hle]
      rw [record_failure_threshold, record_failure_count]
      rename_i hc
      rw [hstate] at hc
      exact le_trans (ih hc) (Nat.le_succ _)
  | succeeds h ih => intro hc; exact absurd rfl hc
  | @proceeds now cb h ih =>
    intro hc
    cases hst : cb.state with
    | closed =>
      have heq : (can_proceed now cb).2 = cb := by unfold can_proceed; rw [hst]
      rw [heq, hst] at hc
      exact absurd rfl hc
    | opened =>
      have hne : cb.state ≠ .closed := by rw [hst]; intro hx; cases hx
      have hcount : (can_proceed now cb).2.failure_count = cb.failure_count ∧
          (can_proceed now cb).2.failure_threshold = cb.failure_threshold := by
        unfold can_proceed
        rw [hst]
        cases cb.last_failure_time with
        | none => exact ⟨rfl, rfl⟩
        | some t => dsimp only; split <;> exact ⟨rfl, rfl⟩
      rw [hcount.1, hcount.2]
      exact ih hne
    | halfOpen =>
      have hne : cb.state ≠ .closed := by rw [hst]; intro hx; cases hx
      have heq : (can_proceed now cb).2 = cb := by unfold can_proceed; rw [hst]
      rw [heq]
      exact ih hne
  | resets h ih => intro hc; exact absurd rfl hc


/-- C4: the circuit breaker contract. (i) From a fresh breaker, after exactly
`failure_threshold` consecutive `record_failure` calls (at arbitrary
instants), `can_proceed` answers false while the timeout since the last
failure has not elapsed. (ii) Once at least `timeout_seconds` have passed
since the last recorded failure, the next `can_proceed` answers true and
moves the breaker to half-open. (iii) `record_success` resets the counter
to zero and the state to closed from any state. (iv) In any reachable
half-open state, `record_failure` re-opens the circuit and restamps the
failure time with that failure's instant. -/
theorem C4_circuit_breaker :
    (∀ (thr : Nat) (tmo : Int) (ts : List Int) (tl now : Int),
      (ts ++ [tl]).length = thr → now - tl < tmo →
      (can_proceed now (foldFailures (ts ++ [tl])
        (CircuitBreaker.init thr tmo))).1 = false)
    ∧ (∀ (cb : CircuitBreaker) (t now : Int), cb.state = .opened →
        cb.last_failure_time = some t → cb.timeout_seconds ≤ now - t →
        can_proceed now cb = (true, { cb with state := .halfOpen }))
    ∧ (∀ cb : CircuitBreaker, (record_success cb).failure_count = 0
        ∧ (record_success cb).state = .closed)
    ∧ (∀ (cb : CircuitBreaker) (now : Int), BreakerReachable cb →
        cb.state = .halfOpen →
        (record_failure now cb).state = .opened
        ∧ (record_failure now cb).last_failure_time = some now) := by
  refine ⟨?_, ?_, ?_, ?_⟩
  · intro thr tmo ts tl now hlen hlt
    have hsplit : foldFailures (ts ++ [tl]) (CircuitBreaker.init thr tmo)
        = record_failure tl (foldFailures ts (CircuitBreaker.init thr tmo)) := by
      unfold foldFailures
      rw [List.foldl_append]
      rfl
    have hf := foldFailures_fields ts (CircuitBreaker.init thr tmo)
    have hthr : (foldFailures ts (CircuitBreaker.init thr tmo)).failure_threshold
        = thr := hf.1
    have htmo : (foldFailures ts (CircuitBreaker.init thr tmo)).timeout_seconds
        = tmo := hf.2.1
    have hcnt : (foldFailures ts (CircuitBreaker.init thr tmo)).failure_count
        = ts.length := by simpa [CircuitBreaker.init] using hf.2.2
    simp only [List.length_append, List.length_cons, List.length_nil] at hlen
    have hcond : (foldFailures ts (CircuitBreaker.init thr tmo)).failure_threshold
        ≤ (foldFailures ts (CircuitBreaker.init thr tmo)).failure_count + 1 := by
      rw [hthr, hcnt]; omega
    have hrf : record_failure tl (foldFailures ts (CircuitBreaker.init thr tmo))
        = { foldFailures ts (CircuitBreaker.init thr tmo) with
              failure_count :=
                (foldFailures ts (CircuitBreaker.init thr tmo)).failure_count + 1,
              last_failure_time := some tl, state := .opened } := by
      unfold record_failure
      rw [if_pos hcond]
    have hnotle : ¬ (foldFailures ts (CircuitBreaker.init thr tmo)).timeout_seconds
        ≤ now - tl := by rw [htmo]; exact not_le.mpr hlt
    rw [hsplit, hrf]
    simp [can_proceed, hnotle]
  · intro cb t now h1 h2 h3
    simp [can_proceed, h1, h2, if_pos h3]
  · intro cb
    exact ⟨rfl, rfl⟩
  · intro cb now hr hst
    have hne : cb.state ≠ .closed := by rw [hst]; intro hx; cases hx
    have hinv := breaker_invariant hr hne
    have hcond : cb.failure_threshold ≤ cb.failure_count + 1 :=
      le_trans hinv (Nat.le_succ _)
    constructor
    · unfold record_failure
      rw [if_pos hcond]
    · exact record_failure_last now cb

/-- C4 witness: the four parts of the contract instantiated with a
threshold-2, timeout-5 breaker (and a threshold-1 breaker driven into the
half-open state for the re-open part). -/
theorem C4_circuit_breaker_witness :
    (can_proceed 2 (foldFailures ([0] ++ [1]) (CircuitBreaker.init 2 5))).1 = false
    ∧ can_proceed 10 ⟨2, 5, 2, some 0, .opened⟩ =
        (true, (⟨2, 5, 2, some 0, .halfOpen⟩ : CircuitBreaker))
    ∧ (record_success ⟨2, 5, 2, some 0, .opened⟩).failure_count = 0
    ∧ (record_success ⟨2, 5, 2, some 0, .opened⟩).state = .closed
    ∧ (record_failure 7
        ((can_proceed 5 (record_failure 0 (CircuitBreaker.init 1 5))).2)).state
        = .opened
    ∧ (record_failure 7
        ((can_proceed 5 (record_failure 0 (CircuitBreaker.init 1 5))).2)).last_failure_time
        = some 7 := by
  have hr : BreakerReachable
      ((can_proceed 5 (record_failure 0 (CircuitBreaker.init 1 5))).2) :=
    BreakerReachable.proceeds 5
      (BreakerReachable.fails 0 (BreakerReachable.start 1 5))
  have h4 := C4_circuit_breaker.2.2.2 _ 7 hr (by decide)
  exact ⟨C4_circuit_breaker.1 2 5 [0] 1 2 (by decide) (by decide),
         C4_circuit_breaker.2.1 ⟨2, 5, 2, some 0, .opened⟩ 0 10 rfl rfl (by decide),
         (C4_circuit_breaker.2.2.1 ⟨2, 5, 2, some 0, .opened⟩).1,
         (C4_circuit_breaker.2.2.1 ⟨2, 5, 2, some 0, .opened⟩).2,
         h4.1, h4.2⟩

/-! ## `rate_limiter.py`: RateLimiter (claim C9)

Clock instants are positive rationals passed explicitly; `time.sleep` is
modelled as exact, so a `wait` started at `now` that sleeps `delay`
completes at `now + delay`. The value drawn by `random.uniform(min_delay,
max_delay)` is an explicit argument. -/

structure RateLimiter where
  min_delay : ℚ
  max_delay : ℚ
  request_times : List ℚ
  last_request_time : Option ℚ
deriving Repr, DecidableEq

/-- `RateLimiter._record_request` at instant `now`: append and purge entries
older than one minute. -/
def record_request (now : ℚ) (rl : RateLimiter) : RateLimiter :=
  { rl with request_times :=
      (rl.request_times ++ [now]).filter (fun u => now - 60 < u) }

/-- `RateLimiter.wait`: the Python truthiness test
`if self.last_request_time:` also rejects the instant 0.0, which the model
reproduces with the inner `if t = 0` branch. Returns the completion
instant and the updated state. -/
def RateLimiter.wait (rl : RateLimiter) (now rand : ℚ) : ℚ × RateLimiter :=
  let delay :=
    match rl.last_request_time with
    | some t =>
      if t = 0 then rand
      else if now - t < rl.min_delay then max rand (rl.min_delay - (now - t))
      else rand
    | none => rand
  let fin := now + delay
  (fin, record_request fin { rl with last_request_time := some fin })

/-- C9: a `wait` call sleeps at least `min_delay` (the drawn delay is from
`[min_delay, max_delay]`, so `min_delay ≤ rand`), records its completion
instant as the new `last_request_time`, and — when a previous call
completed at a (non-zero) instant `t` — completes at least `min_delay`
after `t`, so successive completions are never closer than the configured
minimum delay. -/
theorem C9_rate_limiter :
    ∀ (rl : RateLimiter) (now rand t : ℚ),
      0 ≤ rl.min_delay → rl.min_delay ≤ rand →
      ((rl.wait now rand).1 - now ≥ rl.min_delay)
      ∧ ((rl.wait now rand).2.last_request_time = some (rl.wait now rand).1)
      ∧ (rl.last_request_time = some t → t ≠ 0 → t ≤ now →
          (rl.wait now rand).1 - t ≥ rl.min_delay) := by
  intro rl now rand t h0 hmr
  cases hlt : rl.last_request_time with
  | none =>
    refine ⟨?_, ?_, ?_⟩
    · unfold RateLimiter.wait
      rw [hlt]
      dsimp only
      linarith
    · simp [RateLimiter.wait, hlt, record_request]
    · intro hsome
      exact absurd hsome (by simp)
  | some u =>
    refine ⟨?_, ?_, ?_⟩
    · unfold RateLimiter.wait
      rw [hlt]
      dsimp only
      split_ifs with h1 h2
      · linarith
      · linarith [le_max_left rand (rl.min_delay - (now - u))]
      · linarith
    · simp [RateLimiter.wait, hlt, record_request]
    · intro hsome hne hle
      injection hsome with hut
      subst hut
      unfold RateLimiter.wait
      rw [hlt]
      dsimp only
      split_ifs with h1 h2
      · exact absurd h1 hne
      · linarith [le_max_right rand (rl.min_delay - (now - u))]
      · push_neg at h2
        linarith

/-- C9 witness: minimum delay 2, a previous completion at instant 1 and a
new call at instant 2 with a drawn delay of 3 — the new call completes at
instant 5, four seconds after the previous completion. -/
theorem C9_rate_limiter_witness :
    ((⟨2, 5, [], some 1⟩ : RateLimiter).wait 2 3).1 - 1
      ≥ (⟨2, 5, [], some 1⟩ : RateLimiter).min_delay := by
  have h := C9_rate_limiter ⟨2, 5, [], some 1⟩ 2 3 1 (by norm_num) (by norm_num)
  exact h.2.2 rfl (by norm_num) (by norm_num)


/-! ## `extractor.py`: record extraction and validation (claim C8) -/

/-- ASCII whitespace as treated by `str.strip` and the regex class `\s`. -/
def isPySpace (c : Char) : Bool :=
  c = ' ' || c = '\t' || c = '\n' || c = '\r' || c = '\x0b' || c = '\x0c'

/-- `text.strip()`. -/
def stripStr (s : String) : String :=
  String.mk (((s.toList.dropWhile isPySpace).reverse.dropWhile isPySpace).reverse)

/-- `re.sub(r'\s+', ' ', text)`: collapse whitespace runs to single spaces.
The boolean tracks whether the previous character was whitespace. -/
def collapseRuns : List Char → Bool → List Char
  | [], _ => []
  | c :: t, prevSp =>
    if isPySpace c then
      if prevSp then collapseRuns t true else ' ' :: collapseRuns t true
    else c :: collapseRuns t false

/-- `DataExtractor._clean_text`: strip, collapse whitespace, drop null
bytes, and turn an empty result (or falsy input) into None. -/
def clean_text (text : Option String) : Option String :=
  match text with
  | none => none
  | some s =>
    if s = "" then none
    else
      let s1 := stripStr s
      let s2 := String.mk (collapseRuns s1.toList false)
      let s3 := String.mk (s2.toList.filter (fun c => c ≠ '\x00'))
      if s3 = "" then none else some s3

/-- One raw scraper record (a Python dict); absent keys are `none`, and a
present-but-empty string is falsy exactly like an absent one. -/
structure RawJob where
  job_id : Option String
  title : Option String
  company_name : Option String
  url : Option String
  description : Option String
  requirements : Option String
  location : Option String
  seniority : Option String
  employment_type : Option String
  salary : Option String
  technologies : List String
deriving Repr, DecidableEq

/-- Python truthiness of an optional string field. -/
def truthy : Option String → Bool
  | none => false
  | some s => s ≠ ""

/-- `DataExtractor.validate_required_fields`. -/
def validate_required_fields (raw : RawJob) : Bool :=
  truthy raw.job_id && truthy raw.title && truthy raw.company_name
    && truthy raw.url

structure ExtractedPosting where
  job_id : String
  title : Option String
  company_name : Option String
  url : String
  first_seen_date : Nat
  last_seen_date : Nat
  is_active : Bool
deriving Repr, DecidableEq

structure ExtractedJob where
  job_posting : ExtractedPosting
  description : Option String
  requirements : Option String
  location : Option String
  seniority : Option String
  employment_type : Option String
  salary_text : Option String
  technologies : List String
deriving Repr, DecidableEq

/-- `DataExtractor.extract_job_data` (`today` models `date.today()`). -/
def extract_job_data (today : Nat) (raw : RawJob) : Option ExtractedJob :=
  if validate_required_fields raw then
    some
      { job_posting :=
          { job_id := raw.job_id.getD ""
            title := clean_text raw.title
            company_name := clean_text raw.company_name
            url := raw.url.getD ""
            first_seen_date := today
            last_seen_date := today
            is_active := true }
        description := clean_text raw.description
        requirements := clean_text raw.requirements
        location := raw.location
        seniority := raw.seniority
        employment_type := raw.employment_type
        salary_text := raw.salary
        technologies := raw.technologies }
  else none

inductive PyExc
  | typeError
deriving Repr, DecidableEq

/-- Python `s.startswith(pre)`. -/
def strStartsWith (pre s : String) : Bool :=
  pre.toList.isPrefixOf s.toList

/-- `DataExtractor.validate_job_data` (second validation pass). The Python
code takes `len(...)` of the cleaned title and company; when `_clean_text`
collapsed one of them to `None`, `len(None)` raises a `TypeError` that
nothing catches, which the model makes explicit in the `Except` result. -/
def validate_job_data (d : ExtractedJob) : Except PyExc Bool :=
  if d.job_posting.job_id = "" then .ok false
  else
    match d.job_posting.title with
    | none => .error .typeError
    | some title =>
      if title.length < 3 then .ok false
      else
        match d.job_posting.company_name with
        | none => .error .typeError
        | some comp =>
          if comp.length < 2 then .ok false
          else if ! strStartsWith "http" d.job_posting.url then .ok false
          else .ok true

/-- `DataExtractor.extract_batch`: `validate_job_data` only runs when
extraction succeeded (`if extracted and self.validate_job_data(extracted)`),
and an exception it raises propagates out of the whole batch loop. -/
def extract_batch (today : Nat) : List RawJob → Except PyExc (List ExtractedJob)
  | [] => .ok []
  | raw :: rest =>
    match extract_job_data today raw with
    | none => extract_batch today rest
    | some e =>
      match validate_job_data e with
      | .error exc => .error exc
      | .ok true =>
        match extract_batch today rest with
        | .error exc => .error exc
        | .ok tail => .ok (e :: tail)
      | .ok false => extract_batch today rest

/-- A raw record that passes the required-field check (a whitespace-only
title is truthy) but whose title `_clean_text` collapses to None. -/
def rawWhitespaceTitle : RawJob :=
  { job_id := some "j1", title := some "   ", company_name := some "Acme"
    url := some "https://example.com/job/x", description := none
    requirements := none, location := none, seniority := none
    employment_type := none, salary := none, technologies := [] }

/-- A raw record that passes both validation passes. -/
def rawValid : RawJob :=
  { job_id := some "j2", title := some "Data Engineer"
    company_name := some "Acme", url := some "https://example.com/job/y"
    description := none, requirements := none, location := none
    seniority := none, employment_type := none, salary := none
    technologies := [] }

/-- The extraction result of `rawValid`. -/
def extractedValid : ExtractedJob :=
  { job_posting :=
      { job_id := "j2", title := some "Data Engineer"
        company_name := some "Acme", url := "https://example.com/job/y"
        first_seen_date := 0, last_seen_date := 0, is_active := true }
    description := none, requirements := none, location := none
    seniority := none, employment_type := none, salary_text := none
    technologies := [] }

/-- C8: batch extraction is NOT item-independent — the code contradicts its
own skip-and-continue design. A record whose whitespace-only title passes
the required-field truthiness check is cleaned to a `None` title, and the
second validation pass evaluates `len(None)`, raising an uncaught
`TypeError` that aborts the whole batch: the valid record that follows it
(which alone extracts fine) is lost with it. -/
theorem C8_extract_batch_not_independent :
    clean_text (some "   ") = none
    ∧ validate_required_fields rawWhitespaceTitle = true
    ∧ extract_batch 0 [rawValid] = .ok [extractedValid]
    ∧ extract_batch 0 [rawWhitespaceTitle, rawValid] = .error .typeError := by
  refine ⟨by decide, by decide, by rfl, by rfl⟩


/-! ## `loader.py` over the `models.py` schema (claims C1, C2, C3, C10)

Tables are lists of rows; each UNIQUE constraint of `models.py` is modelled
by the corresponding upsert operating on its key. Wall-clock columns
(`created_at`, `updated_at`) and the surrogate autoincrement ids of row
tables are outside the model; the technologies table keeps its ids because
`job_technologies` references them. -/

structure PostingRow where
  job_id : String
  title : Option String
  company_name : Option String
  url : String
  first_seen_date : Nat
  last_seen_date : Nat
  is_active : Bool
deriving Repr, DecidableEq

/-- The snapshot payload of a transformed item, as handed to `_load_job`
(`country = none` models an absent dict key, stored with the
`.get('country', 'Poland')` default). -/
structure SnapshotVal where
  description : Option String
  requirements : Option String
  location_type : Option String
  city : Option String
  region : Option String
  country : Option String
  seniority_level : Option String
  employment_type : Option String
deriving Repr, DecidableEq

structure SnapshotRow where
  job_id : String
  snapshot_date : Nat
  description : Option String
  requirements : Option String
  location_type : Option String
  city : Option String
  region : Option String
  country : String
  seniority_level : Option String
  employment_type : Option String
deriving Repr, DecidableEq

structure SalaryRow where
  job_id : String
  snapshot_date : Nat
  currency : String
  salary_min : ℚ
  salary_max : ℚ
  salary_avg : ℚ
  period : String
  is_b2b : Bool
deriving Repr, DecidableEq

structure TechRow where
  id : Nat
  name : String
  category : String
deriving Repr, DecidableEq

structure LinkRow where
  job_id : String
  technology_id : Nat
  snapshot_date : Nat
deriving Repr, DecidableEq

structure MetricsRow where
  total_jobs : Nat
  remote_jobs : Nat
  office_jobs : Nat
  hybrid_jobs : Nat
  avg_salary_pln : Option ℚ
  median_salary_pln : Option ℚ
  jobs_scraped : Nat
deriving Repr, DecidableEq

structure Store where
  postings : List PostingRow
  snapshots : List SnapshotRow
  salaries : List SalaryRow
  technologies : List TechRow
  nextTechId : Nat
  links : List LinkRow
  daily_metrics : List (Nat × MetricsRow)
deriving Repr, DecidableEq

structure TechMention where
  name : String
  category : String
deriving Repr, DecidableEq

/-- One transformed job record as consumed by `_load_job`. -/
structure LoadItem where
  job_id : String
  title : Option String
  company_name : Option String
  url : String
  first_seen_date : Nat
  last_seen_date : Nat
  snapshot : SnapshotVal
  salary : Option SalaryNorm
  technologies : List TechMention
deriving Repr, DecidableEq

/-- `fetch_one("SELECT * FROM job_postings WHERE job_id = ?")`. -/
def findPosting (S : Store) (jid : String) : Option PostingRow :=
  S.postings.find? (fun p => p.job_id == jid)

/-- `_update_job_posting`: `UPDATE job_postings SET last_seen_date = ?,
is_active = 1 WHERE job_id = ?`. -/
def updatePosting (jid : String) (lastSeen : Nat) (ps : List PostingRow) :
    List PostingRow :=
  ps.map (fun p =>
    if p.job_id == jid then { p with last_seen_date := lastSeen, is_active := true }
    else p)

/-- `_insert_job_posting` (`is_active = 1`). -/
def insertPosting (it : LoadItem) (ps : List PostingRow) : List PostingRow :=
  ps ++ [⟨it.job_id, it.title, it.company_name, it.url, it.first_seen_date,
         it.last_seen_date, true⟩]

/-- `INSERT OR REPLACE INTO job_snapshots` against its
UNIQUE(job_id, snapshot_date): replace the conflicting row, else append. -/
def upsertSnapshot (row : SnapshotRow) : List SnapshotRow → List SnapshotRow
  | [] => [row]
  | r :: t =>
    if r.job_id == row.job_id && r.snapshot_date == row.snapshot_date then
      row :: t
    else r :: upsertSnapshot row t

/-- `INSERT OR REPLACE INTO salaries`: `models.py` declares NO uniqueness
constraint on (job_id, snapshot_date) for the salaries table — only the
autoincrement primary key — so the statement never conflicts and always
appends a fresh row. -/
def insertSalary (row : SalaryRow) (rows : List SalaryRow) : List SalaryRow :=
  rows ++ [row]

def findTech (S : Store) (name : String) : Option TechRow :=
  S.technologies.find? (fun t => t.name == name)

/-- `_get_or_create_technology`: result is (store, technology id, whether a
row was created). Created rows get the next autoincrement id. -/
def get_or_create_technology (S : Store) (name category : String) :
    Store × Nat × Bool :=
  match findTech S name with
  | some t => (S, t.id, false)
  | none =>
    ({ S with technologies := S.technologies ++ [⟨S.nextTechId, name, category⟩]
              nextTechId := S.nextTechId + 1 },
     S.nextTechId, true)

/-- `INSERT OR IGNORE INTO job_technologies` against
UNIQUE(job_id, technology_id, snapshot_date). -/
def insertLink (l : LinkRow) (ls : List LinkRow) : List LinkRow :=
  if ls.contains l then ls else ls ++ [l]

/-- `_insert_technologies`: the store after all mentions plus the number of
newly created technology rows (the `technologies_new` increment). -/
def insert_technologies (jid : String) (d : Nat) :
    List TechMention → Store → Store × Nat
  | [], S => (S, 0)
  | tm :: rest, S =>
    let r := get_or_create_technology S tm.name tm.category
    let S2 := { r.1 with links := insertLink ⟨jid, r.2.1, d⟩ r.1.links }
    let r2 := insert_technologies jid d rest S2
    (r2.1, (if r.2.2 then 1 else 0) + r2.2)

def snapshotRowOf (it : LoadItem) (d : Nat) : SnapshotRow :=
  { job_id := it.job_id, snapshot_date := d
    description := it.snapshot.description
    requirements := it.snapshot.requirements
    location_type := it.snapshot.location_type
    city := it.snapshot.city
    region := it.snapshot.region
    country := it.snapshot.country.getD "Poland"
    seniority_level := it.snapshot.seniority_level
    employment_type := it.snapshot.employment_type }

def salaryRowOf (it : LoadItem) (sv : SalaryNorm) (d : Nat) : SalaryRow :=
  { job_id := it.job_id, snapshot_date := d
    currency := sv.currency, salary_min := sv.salary_min
    salary_max := sv.salary_max, salary_avg := sv.salary_avg
    period := sv.period, is_b2b := sv.is_b2b }

/-- `DataLoader._load_job`: (store, whether the posting was new, the count
of new technologies). -/
def load_job (S : Store) (it : LoadItem) (d : Nat) : Store × Bool × Nat :=
  let r1 :=
    match findPosting S it.job_id with
    | some _ =>
      ({ S with postings := updatePosting it.job_id it.last_seen_date S.postings },
       false)
    | none => ({ S with postings := insertPosting it S.postings }, true)
  let S2 := { r1.1 with snapshots := upsertSnapshot (snapshotRowOf it d) r1.1.snapshots }
  let S3 :=
    match it.salary with
    | none => S2
    | some sv => { S2 with salaries := insertSalary (salaryRowOf it sv d) S2.salaries }
  let r4 := insert_technologies it.job_id d it.technologies S3
  (r4.1, r1.2, r4.2)

structure RunStats where
  jobs_new : Nat
  jobs_updated : Nat
  jobs_expired : Nat
  technologies_new : Nat
  errors : Nat
deriving Repr, DecidableEq

def RunStats.zero : RunStats := ⟨0, 0, 0, 0, 0⟩

/-- The per-item loop of `load_all`. `faults i` injects the caught per-item
exception of the `try/except` around `_load_job` (modelled as raised before
any of the item's writes); `fatal = some i` injects an error the per-item
handler cannot catch, aborting the transaction body at item `i`. Returns
the accumulator (store, statistics, seen-id list) and whether the loop
completed without a fatal error. -/
def run_items (faults : Nat → Bool) (fatal : Option Nat) (d : Nat) :
    List LoadItem → Nat → Store × RunStats × List String →
    (Store × RunStats × List String) × Bool
  | [], _, acc => (acc, true)
  | it :: rest, i, acc =>
    if fatal = some i then (acc, false)
    else if faults i then
      run_items faults fatal d rest (i + 1)
        (acc.1, { acc.2.1 with errors := acc.2.1.errors + 1 }, acc.2.2)
    else
      let r := load_job acc.1 it d
      let st2 :=
        if r.2.1 then
          { acc.2.1 with jobs_new := acc.2.1.jobs_new + 1
                         technologies_new := acc.2.1.technologies_new + r.2.2 }
        else
          { acc.2.1 with jobs_updated := acc.2.1.jobs_updated + 1
                         technologies_new := acc.2.1.technologies_new + r.2.2 }
      let ids2 := if acc.2.2.contains it.job_id then acc.2.2
                  else acc.2.2 ++ [it.job_id]
      run_items faults fatal d rest (i + 1) (r.1, st2, ids2)

/-- `_mark_expired_jobs`: deactivate every currently-active posting whose id
is not in `ids`; the count is the number of rows deactivated. -/
def mark_expired (ids : List String) (ps : List PostingRow) :
    List PostingRow × Nat :=
  (ps.map (fun p =>
      if p.is_active && !(ids.contains p.job_id) then { p with is_active := false }
      else p),
   (ps.filter (fun p => p.is_active && !(ids.contains p.job_id))).length)

def snapsAt (S : Store) (jid : String) (d : Nat) : List SnapshotRow :=
  S.snapshots.filter (fun r => r.job_id == jid && r.snapshot_date == d)

def salsAt (S : Store) (jid : String) (d : Nat) : List SalaryRow :=
  S.salaries.filter (fun r => r.job_id == jid && r.snapshot_date == d)

/-- The FROM/LEFT JOIN clause of the metrics query: each active posting row
contributes the cross product of its matching snapshot and salary rows for
the date, with a null side when there is no match. -/
def joinedRows (S : Store) (d : Nat) :
    List (PostingRow × Option SnapshotRow × Option SalaryRow) :=
  (S.postings.filter (fun p => p.is_active)).flatMap
    (fun p =>
      let sn := snapsAt S p.job_id d
      let sa := salsAt S p.job_id d
      let snOpt : List (Option SnapshotRow) :=
        if sn.isEmpty then [none] else sn.map some
      let saOpt : List (Option SalaryRow) :=
        if sa.isEmpty then [none] else sa.map some
      snOpt.flatMap (fun x => saOpt.map (fun y => (p, x, y))))

def countLocType (rows : List (PostingRow × Option SnapshotRow × Option SalaryRow))
    (ty : String) : Nat :=
  (rows.filter (fun r =>
    match r.2.1 with
    | some sn => sn.location_type == some ty
    | none => false)).length

/-- `_update_daily_metrics` (loader.py lines 299-365): COUNT(DISTINCT
job_id) over active postings, SUM(CASE ...) per location type and
AVG(salary_avg) over the joined rows, and the median via ORDER BY ...
LIMIT 1 OFFSET COUNT(*)/2 over that date's salary rows. (SQL's SUM yields
NULL instead of 0 on an empty join; the claims never compare metric rows in
that corner.) -/
def compute_metrics (S : Store) (d : Nat) : MetricsRow :=
  let rows := joinedRows S d
  let total :=
    ((S.postings.filter (fun p => p.is_active)).map (fun p => p.job_id)).dedup.length
  let avgVals := rows.filterMap (fun r => r.2.2.map (fun s => s.salary_avg))
  let avg : Option ℚ :=
    if avgVals.isEmpty then none else some (avgVals.sum / avgVals.length)
  let dateSal := (S.salaries.filter (fun r => r.snapshot_date == d)).map
    (fun r => r.salary_avg)
  let median := (dateSal.mergeSort (fun a b => a ≤ b))[dateSal.length / 2]?
  { total_jobs := total
    remote_jobs := countLocType rows "remote"
    office_jobs := countLocType rows "office"
    hybrid_jobs := countLocType rows "hybrid"
    avg_salary_pln := avg
    median_salary_pln := median
    jobs_scraped := total }

/-- `INSERT OR REPLACE INTO daily_metrics` against UNIQUE(metric_date). -/
def upsertMetric (d : Nat) (m : MetricsRow) :
    List (Nat × MetricsRow) → List (Nat × MetricsRow)
  | [] => [(d, m)]
  | r :: t => if r.1 == d then (d, m) :: t else r :: upsertMetric d m t

/-- The tail of `load_all` after the item loop: liveness reconciliation
(guarded by `if active_job_ids:` — skipped entirely when the seen-id set is
empty) and the daily-metrics rollup. -/
def finish_run (d : Nat) (S : Store) (st : RunStats) (ids : List String) :
    Store × RunStats :=
  let r2 :=
    if ids.isEmpty then (S, st)
    else
      let r := mark_expired ids S.postings
      ({ S with postings := r.1 }, { st with jobs_expired := r.2 })
  let m := compute_metrics r2.1 d
  ({ r2.1 with daily_metrics := upsertMetric d m r2.1.daily_metrics }, r2.2)

/-- `DataLoader.load_all` on the happy path of the transaction (no fatal
error): per-item exceptions are counted, liveness reconciled, metrics
recomputed. -/
def load_all (faults : Nat → Bool) (S : Store) (batch : List LoadItem)
    (d : Nat) : Store × RunStats :=
  let r := run_items faults none d batch 0 (S, RunStats.zero, [])
  finish_run d r.1.1 r.1.2.1 r.1.2.2

/-- `load_all` inside `DatabaseManager.transaction` (db_manager.py lines
164-181): when the body raises an error the per-item handler cannot catch
(`fatal = some i`), the context manager calls `conn.rollback()`, so the
store reverts to its pre-run state and no statistics are produced. -/
def load_all_tx (faults : Nat → Bool) (fatal : Option Nat) (S : Store)
    (batch : List LoadItem) (d : Nat) : Store × Option RunStats :=
  let r := run_items faults fatal d batch 0 (S, RunStats.zero, [])
  if r.2 then
    let f := finish_run d r.1.1 r.1.2.1 r.1.2.2
    (f.1, some f.2)
  else (S, none)

/-- No injected per-item faults (every `_load_job` call succeeds). -/
def noFaults : Nat → Bool := fun _ => false


/-! ## Concrete fixtures shared by the loader claims -/

/-- A fresh database. SQLite autoincrement ids start at 1. -/
def emptyStore : Store := ⟨[], [], [], [], 1, [], []⟩

/-- A transformed job with a parseable salary and one technology. -/
def itemA : LoadItem :=
  { job_id := "job-a", title := some "Python Developer"
    company_name := some "Acme", url := "https://example.com/job/a"
    first_seen_date := 7, last_seen_date := 7
    snapshot :=
      { description := some "desc", requirements := none
        location_type := some "hybrid", city := some "Warszawa"
        region := some "Mazowieckie", country := some "Poland"
        seniority_level := some "mid", employment_type := some "b2b" }
    salary := some ⟨15000, 20000, 17500, "PLN", "monthly", false⟩
    technologies := [⟨"Python", "language"⟩] }

/-- A pre-existing active posting whose id never occurs in any batch used
below. -/
def postingB : PostingRow :=
  ⟨"job-b", some "Old Job", some "OldCo", "https://example.com/job/b", 1, 1, true⟩

/-- A store holding only `postingB`. -/
def storeB : Store := ⟨[postingB], [], [], [], 1, [], []⟩

/-! ## C2: transaction rollback -/

/-- A fatal error inside the batch makes the item loop report an incomplete
run. -/
theorem run_items_hits_fatal (faults : Nat → Bool) (n : Nat) (d : Nat) :
    ∀ (batch : List LoadItem) (i : Nat) (acc : Store × RunStats × List String),
      i ≤ n → n < i + batch.length →
      (run_items faults (some n) d batch i acc).2 = false := by
  intro batch
  induction batch with
  | nil =>
    intro i acc h1 h2
    simp only [List.length_nil] at h2
    omega
  | cons it rest ih =>
    intro i acc h1 h2
    by_cases hin : i = n
    · subst hin
      unfold run_items
      rw [if_pos rfl]
    · have h1a : i + 1 ≤ n := by omega
      have h2a : n < (i + 1) + rest.length := by
        simp only [List.length_cons] at h2
        omega
      have hne : ¬ ((some n : Option Nat) = some i) := by
        intro hx
        exact hin (Option.some.injEq n i ▸ hx).symm
      unfold run_items
      rw [if_neg hne]
      by_cases hf : faults i
      · rw [if_pos hf]
        exact ih (i + 1) _ h1a h2a
      · rw [if_neg hf]
        dsimp only
        exact ih (i + 1) _ h1a h2a

/-- C2: a run whose transaction body hits a fatal error at any item index
`n < M` rolls back completely — the resulting store is exactly the pre-run
store (no postings, snapshots, salaries, or links from the run are
visible) and no statistics are produced. -/
theorem C2_transaction_rollback (faults : Nat → Bool) (S : Store)
    (batch : List LoadItem) (d : Nat) (n : Nat) (h : n < batch.length) :
    load_all_tx faults (some n) S batch d = (S, none) := by
  have hrun := run_items_hits_fatal faults n d batch 0
    (S, RunStats.zero, []) (Nat.zero_le n) (by omega)
  unfold load_all_tx
  dsimp only
  rw [hrun]
  rfl

/-- C2 witness: a fatal error on the only item of a batch loaded into a
store with existing data leaves the store untouched. -/
theorem C2_transaction_rollback_witness :
    load_all_tx noFaults (some 0) storeB [itemA] 7 = (storeB, none) :=
  C2_transaction_rollback noFaults storeB [itemA] 7 0 (by decide)


/-! ## C10: per-item accounting of the run statistics -/

/-- Without a fatal error the item loop always completes, and every item
contributes exactly one increment among new / updated / errors. -/
theorem run_items_stats (faults : Nat → Bool) (d : Nat) :
    ∀ (batch : List LoadItem) (i : Nat) (acc : Store × RunStats × List String),
      (run_items faults none d batch i acc).2 = true
      ∧ (run_items faults none d batch i acc).1.2.1.jobs_new
          + (run_items faults none d batch i acc).1.2.1.jobs_updated
          + (run_items faults none d batch i acc).1.2.1.errors
        = acc.2.1.jobs_new + acc.2.1.jobs_updated + acc.2.1.errors
            + batch.length := by
  intro batch
  induction batch with
  | nil => intro i acc; exact ⟨rfl, by simp [run_items]⟩
  | cons it rest ih =>
    intro i acc
    unfold run_items
    rw [if_neg (by simp : ¬ ((none : Option Nat) = some i))]
    by_cases hf : faults i
    · rw [if_pos hf]
      refine ⟨(ih (i + 1) _).1, ?_⟩
      rw [(ih (i + 1) _).2]
      simp only [List.length_cons]
      omega
    · rw [if_neg hf]
      dsimp only
      refine ⟨(ih (i + 1) _).1, ?_⟩
      rw [(ih (i + 1) _).2]
      by_cases hnew : (load_job acc.1 it d).2.1 <;>
        simp [hnew] <;> omega

/-- `finish_run` only touches the expired-jobs statistic. -/
theorem finish_run_stats (d : Nat) (S : Store) (st : RunStats)
    (ids : List String) :
    (finish_run d S st ids).2.jobs_new = st.jobs_new
    ∧ (finish_run d S st ids).2.jobs_updated = st.jobs_updated
    ∧ (finish_run d S st ids).2.technologies_new = st.technologies_new
    ∧ (finish_run d S st ids).2.errors = st.errors := by
  unfold finish_run
  dsimp only
  split <;> exact ⟨rfl, rfl, rfl, rfl⟩

theorem load_all_stats_sum (faults : Nat → Bool) (S : Store)
    (batch : List LoadItem) (d : Nat) :
    (load_all faults S batch d).2.jobs_new
      + (load_all faults S batch d).2.jobs_updated
      + (load_all faults S batch d).2.errors = batch.length := by
  unfold load_all
  dsimp only
  rw [(finish_run_stats _ _ _ _).1, (finish_run_stats _ _ _ _).2.1,
    (finish_run_stats _ _ _ _).2.2.2]
  have h := (run_items_stats faults d batch 0 (S, RunStats.zero, [])).2
  simpa [RunStats.zero] using h

/-- C10: every item that the loader processes without an error increments
exactly one of the new-job and updated-job counters, and a faulting item
increments only the error counter — so new + updated + errors equals the
batch size, and a run reporting zero errors has new + updated equal to the
number of items in the batch. -/
theorem C10_item_accounting (faults : Nat → Bool) (S : Store)
    (batch : List LoadItem) (d : Nat) :
    ((load_all faults S batch d).2.jobs_new
        + (load_all faults S batch d).2.jobs_updated
        + (load_all faults S batch d).2.errors = batch.length)
    ∧ ((load_all faults S batch d).2.errors = 0 →
        (load_all faults S batch d).2.jobs_new
          + (load_all faults S batch d).2.jobs_updated = batch.length) := by
  have hsum := load_all_stats_sum faults S batch d
  exact ⟨hsum, fun h0 => by omega⟩

/-- C10 witness: a fault-free single-item run reports zero errors, and its
new + updated counters sum to the batch size. -/
theorem C10_item_accounting_witness :
    (load_all noFaults emptyStore [itemA] 0).2.jobs_new
      + (load_all noFaults emptyStore [itemA] 0).2.jobs_updated = 1 :=
  (C10_item_accounting noFaults emptyStore [itemA] 0).2 (by decide)


/-! ## C3: liveness reconciliation lemmas -/

theorem get_or_create_technology_tables (S : Store) (n c : String) :
    (get_or_create_technology S n c).1.postings = S.postings
    ∧ (get_or_create_technology S n c).1.snapshots = S.snapshots
    ∧ (get_or_create_technology S n c).1.salaries = S.salaries := by
  rcases h : findTech S n with _ | t <;>
    simp [get_or_create_technology, h]

theorem insert_technologies_tables (jid : String) (d : Nat) :
    ∀ (ts : List TechMention) (S : Store),
      (insert_technologies jid d ts S).1.postings = S.postings
      ∧ (insert_technologies jid d ts S).1.snapshots = S.snapshots
      ∧ (insert_technologies jid d ts S).1.salaries = S.salaries := by
  intro ts
  induction ts with
  | nil => intro S; exact ⟨rfl, rfl, rfl⟩
  | cons tm rest ih =>
    intro S
    unfold insert_technologies
    dsimp only
    have hg := get_or_create_technology_tables S tm.name tm.category
    have hr := ih { (get_or_create_technology S tm.name tm.category).1 with
      links := insertLink
        ⟨jid, (get_or_create_technology S tm.name tm.category).2.1, d⟩
        (get_or_create_technology S tm.name tm.category).1.links }
    exact ⟨hr.1.trans hg.1, hr.2.1.trans hg.2.1, hr.2.2.trans hg.2.2⟩

/-- The postings table after `_load_job` is exactly the update-or-insert of
the per-item algorithm; the snapshot, salary and technology writes leave it
alone. -/
theorem load_job_postings (S : Store) (it : LoadItem) (d : Nat) :
    (load_job S it d).1.postings =
      (if (findPosting S it.job_id).isSome then
        updatePosting it.job_id it.last_seen_date S.postings
      else insertPosting it S.postings) := by
  unfold load_job
  dsimp only
  rcases h : findPosting S it.job_id with _ | p <;>
    cases it.salary <;>
      simp [h, (insert_technologies_tables _ _ _ _).1]

theorem filter_updatePosting (q : PostingRow → Bool) (jid : String)
    (ls : Nat) (ps : List PostingRow)
    (hq : ∀ p : PostingRow, p.job_id = jid → q p = false) :
    (updatePosting jid ls ps).filter q = ps.filter q := by
  induction ps with
  | nil => rfl
  | cons p t ih =>
    have hstep : updatePosting jid ls (p :: t)
        = (if p.job_id == jid then
            { p with last_seen_date := ls, is_active := true }
          else p) :: updatePosting jid ls t := rfl
    rw [hstep]
    by_cases hp : p.job_id = jid
    · have h1 : q p = false := hq p hp
      have h2 : q { p with last_seen_date := ls, is_active := true } = false :=
        hq _ hp
      have hpb : (p.job_id == jid) = true := by simpa using hp
      rw [if_pos hpb, List.filter_cons, List.filter_cons, h1, h2]
      simp [ih]
    · have hpb : (p.job_id == jid) = false := by simpa using hp
      rw [if_neg (by simp [hpb]), List.filter_cons, List.filter_cons, ih]

theorem filter_insertPosting (q : PostingRow → Bool) (it : LoadItem)
    (ps : List PostingRow)
    (hq : ∀ p : PostingRow, p.job_id = it.job_id → q p = false) :
    (insertPosting it ps).filter q = ps.filter q := by
  unfold insertPosting
  rw [List.filter_append]
  have hrow : q ⟨it.job_id, it.title, it.company_name, it.url,
      it.first_seen_date, it.last_seen_date, true⟩ = false := hq _ rfl
  simp [hrow]

theorem load_job_postings_filter (q : PostingRow → Bool) (S : Store)
    (it : LoadItem) (d : Nat)
    (hq : ∀ p : PostingRow, p.job_id = it.job_id → q p = false) :
    ((load_job S it d).1.postings).filter q = S.postings.filter q := by
  rw [load_job_postings]
  split
  · exact filter_updatePosting q it.job_id it.last_seen_date S.postings hq
  · exact filter_insertPosting q it S.postings hq

/-- Rows whose id never occurs in the batch pass through the item loop
untouched (stated through an arbitrary filter that ignores batch ids). -/
theorem run_items_postings_filter (faults : Nat → Bool) (d : Nat)
    (q : PostingRow → Bool) :
    ∀ (batch : List LoadItem) (i : Nat) (acc : Store × RunStats × List String),
      (∀ it ∈ batch, ∀ p : PostingRow, p.job_id = it.job_id → q p = false) →
      ((run_items faults none d batch i acc).1.1.postings).filter q
        = (acc.1.postings).filter q := by
  intro batch
  induction batch with
  | nil => intro i acc _; rfl
  | cons it rest ih =>
    intro i acc hq
    unfold run_items
    rw [if_neg (by simp : ¬ ((none : Option Nat) = some i))]
    by_cases hf : faults i
    · rw [if_pos hf]
      exact ih (i + 1) _ (fun x hx => hq x (List.mem_cons_of_mem it hx))
    · rw [if_neg hf]
      dsimp only
      rw [ih (i + 1) _ (fun x hx => hq x (List.mem_cons_of_mem it hx))]
      exact load_job_postings_filter q acc.1 it d
        (hq it (List.mem_cons_self it rest))

/-- The seen-id set collected by a fault-free item loop holds exactly the
initial ids plus the batch's ids. -/
theorem run_items_ids (d : Nat) :
    ∀ (batch : List LoadItem) (i : Nat) (acc : Store × RunStats × List String)
      (x : String),
      x ∈ (run_items noFaults none d batch i acc).1.2.2
        ↔ (x ∈ acc.2.2 ∨ x ∈ batch.map (fun it => it.job_id)) := by
  intro batch
  induction batch with
  | nil => intro i acc x; simp [run_items]
  | cons it rest ih =>
    intro i acc x
    unfold run_items
    rw [if_neg (by simp : ¬ ((none : Option Nat) = some i))]
    rw [if_neg (by simp [noFaults] : ¬ (noFaults i = true))]
    dsimp only
    rw [ih (i + 1) _ x]
    by_cases hmem : acc.2.2.contains it.job_id
    · rw [if_pos hmem]
      have hm : it.job_id ∈ acc.2.2 := by
        simpa [List.contains, List.elem_eq_mem] using hmem
      simp only [List.map_cons, List.mem_cons]
      constructor
      · rintro (h | h)
        · exact Or.inl h
        · exact Or.inr (Or.inr h)
      · rintro (h | h | h)
        · exact Or.inl h
        · exact Or.inl (by rw [h]; exact hm)
        · exact Or.inr h
    · rw [if_neg hmem]
      simp only [List.mem_append, List.map_cons, List.mem_cons,
        List.mem_singleton]
      tauto


theorem mark_expired_absent_inactive (ids : List String)
    (ps : List PostingRow) :
    ∀ p ∈ (mark_expired ids ps).1, ids.contains p.job_id = false →
      p.is_active = false := by
  intro p hp hcon
  unfold mark_expired at hp
  simp only [List.mem_map] at hp
  obtain ⟨p0, hp0, heq⟩ := hp
  by_cases hact : (p0.is_active && !(ids.contains p0.job_id)) = true
  · rw [if_pos hact] at heq
    rw [← heq]
  · rw [if_neg hact] at heq
    subst heq
    cases hia : p0.is_active
    · rfl
    · exfalso
      apply hact
      rw [hia, hcon]
      rfl

theorem contains_isEmpty_false {l : List String} {x : String}
    (h : l.contains x = true) : l.isEmpty = false := by
  cases l with
  | nil => simp [List.contains] at h
  | cons a t => rfl

theorem finish_run_main (d : Nat) (S : Store) (st : RunStats)
    (ids : List String) (hne : ids.isEmpty = false) :
    (finish_run d S st ids).1.postings = (mark_expired ids S.postings).1
    ∧ (finish_run d S st ids).2.jobs_expired
        = (mark_expired ids S.postings).2 := by
  unfold finish_run
  dsimp only
  rw [if_neg (by simp [hne])]
  exact ⟨rfl, rfl⟩

/-- C3 (amended): provided the batch is non-empty — the code skips liveness
reconciliation entirely when the seen-id set is empty — every posting whose
external id is absent from the batch is inactive after the run, and the
expired statistic equals the number of pre-run active postings whose id is
absent from the batch. -/
theorem C3_expiry_reconciliation (S : Store) (batch : List LoadItem)
    (d : Nat) (hne : batch ≠ []) :
    (∀ p ∈ (load_all noFaults S batch d).1.postings,
        (batch.map (fun it => it.job_id)).contains p.job_id = false →
        p.is_active = false)
    ∧ (load_all noFaults S batch d).2.jobs_expired
        = (S.postings.filter (fun p => p.is_active
            && !((batch.map (fun it => it.job_id)).contains p.job_id))).length := by
  obtain ⟨it0, rest, rfl⟩ : ∃ it0 rest, batch = it0 :: rest := by
    cases batch with
    | nil => exact absurd rfl hne
    | cons a t => exact ⟨a, t, rfl⟩
  unfold load_all
  dsimp only
  set R := run_items noFaults none d (it0 :: rest) 0
    (S, RunStats.zero, ([] : List String)) with hR
  have hid : ∀ x, R.1.2.2.contains x
      = ((it0 :: rest).map (fun it => it.job_id)).contains x := by
    intro x
    have hiff : x ∈ R.1.2.2 ↔ x ∈ (it0 :: rest).map (fun it => it.job_id) := by
      rw [hR]
      simpa using run_items_ids d (it0 :: rest) 0 (S, RunStats.zero, []) x
    have e1 : R.1.2.2.contains x = decide (x ∈ R.1.2.2) :=
      List.elem_eq_mem x _
    have e2 : ((it0 :: rest).map (fun it => it.job_id)).contains x
        = decide (x ∈ (it0 :: rest).map (fun it => it.job_id)) :=
      List.elem_eq_mem x _
    rw [e1, e2]
    exact decide_eq_decide.mpr hiff
  have hnonempty : R.1.2.2.isEmpty = false := by
    apply contains_isEmpty_false (x := it0.job_id)
    rw [hid]
    simp [List.elem_eq_mem]
  have hfm := finish_run_main d R.1.1 R.1.2.1 R.1.2.2 hnonempty
  refine ⟨?_, ?_⟩
  · intro p hp hcon
    rw [hfm.1] at hp
    refine mark_expired_absent_inactive R.1.2.2 R.1.1.postings p hp ?_
    rw [hid p.job_id]
    exact hcon
  · rw [hfm.2]
    have hcount : (mark_expired R.1.2.2 R.1.1.postings).2
        = (R.1.1.postings.filter (fun p => p.is_active
            && !(R.1.2.2.contains p.job_id))).length := rfl
    rw [hcount]
    have hswap : R.1.1.postings.filter (fun p => p.is_active
          && !(R.1.2.2.contains p.job_id))
        = R.1.1.postings.filter (fun p => p.is_active
            && !(((it0 :: rest).map (fun it => it.job_id)).contains p.job_id)) :=
      List.filter_congr (fun p _ => by rw [hid p.job_id])
    rw [hswap, hR]
    congr 1
    apply run_items_postings_filter
    intro it hit p hpe
    have hcontains : ((it0 :: rest).map (fun x => x.job_id)).contains p.job_id
        = true := by
      rw [hpe]
      have hmem : it.job_id ∈ (it0 :: rest).map (fun x => x.job_id) :=
        List.mem_map_of_mem _ hit
      have e3 : ((it0 :: rest).map (fun x => x.job_id)).contains it.job_id
          = decide (it.job_id ∈ (it0 :: rest).map (fun x => x.job_id)) :=
        List.elem_eq_mem _ _
      rw [e3]
      simpa using hmem
    rw [hcontains]
    simp

/-- C3 counterexample: with an empty batch the guard `if active_job_ids:`
skips reconciliation, so a pre-run active posting whose id is (vacuously)
absent from the batch keeps its active flag, refuting the claim as stated
for every batch. -/
theorem C3_expiry_counterexample :
    postingB.is_active = true
    ∧ (load_all noFaults storeB [] 0).1.postings = [postingB]
    ∧ (load_all noFaults storeB [] 0).2.jobs_expired = 0 := by
  refine ⟨rfl, by decide, by decide⟩

/-- C3 witness: a non-empty batch into a store holding an unrelated active
posting — the posting is deactivated and counted. -/
theorem C3_expiry_reconciliation_witness :
    (∀ p ∈ (load_all noFaults storeB [itemA] 7).1.postings,
        ([itemA].map (fun it => it.job_id)).contains p.job_id = false →
        p.is_active = false)
    ∧ (load_all noFaults storeB [itemA] 7).2.jobs_expired
        = (storeB.postings.filter (fun p => p.is_active
            && !(([itemA].map (fun it => it.job_id)).contains p.job_id))).length
    ∧ (load_all noFaults storeB [itemA] 7).2.jobs_expired = 1 := by
  have h := C3_expiry_reconciliation storeB [itemA] 7 (by simp)
  exact ⟨h.1, h.2, by decide⟩


/-! ## C1: idempotent re-load -/

/-- C1: the idempotency contract is broken by the schema. `models.py`
declares no uniqueness constraint on (job_id, snapshot_date) for the
`salaries` table, so the loader's `INSERT OR REPLACE INTO salaries` never
conflicts and appends a duplicate row on every re-load: loading the same
one-item batch twice with the same run date leaves two salary rows where
the contract requires the aggregates to be unchanged (snapshots, links and
technologies, which do carry uniqueness constraints, are upserted
correctly — the re-run also reports zero new postings and zero new
technologies, and counts the item as updated where the first run counted
it as new). -/
theorem C1_idempotency_code_bug :
    ((load_all noFaults emptyStore [itemA] 7).2.jobs_new = 1)
    ∧ ((load_all noFaults emptyStore [itemA] 7).2.jobs_updated = 0)
    ∧ ((load_all noFaults emptyStore [itemA] 7).1.salaries.length = 1)
    ∧ ((load_all noFaults (load_all noFaults emptyStore [itemA] 7).1
          [itemA] 7).1.salaries.length = 2)
    ∧ ((load_all noFaults (load_all noFaults emptyStore [itemA] 7).1
          [itemA] 7).2.jobs_new = 0)
    ∧ ((load_all noFaults (load_all noFaults emptyStore [itemA] 7).1
          [itemA] 7).2.jobs_updated = 1)
    ∧ ((load_all noFaults (load_all noFaults emptyStore [itemA] 7).1
          [itemA] 7).2.technologies_new = 0)
    ∧ ((load_all noFaults (load_all noFaults emptyStore [itemA] 7).1
          [itemA] 7).1.snapshots.length = 1)
    ∧ ((load_all noFaults (load_all noFaults emptyStore [itemA] 7).1
          [itemA] 7).1.links.length = 1)
    ∧ ((load_all noFaults (load_all noFaults emptyStore [itemA] 7).1
          [itemA] 7).1.technologies.length = 1) := by
  refine ⟨by decide, by decide, by decide, by decide, by decide, by decide,
    by decide, by decide, by decide, by decide⟩

end TechJobs
